import Mathlib

/-!
Verification of the leaderboard server (`src/server/server.js`).

The server keeps two MongoDB collections, `User` and `PointHistory`, and
exposes four HTTP routes: `GET /users` (leaderboard sorted by points
descending), `POST /users` (register a player), `POST /claim-points`
(award a random 1..10 points to a player and log an award record) and
`GET /point-history` (award records sorted by timestamp descending with
the player resolved to its username).

We embed the store as a `Store` structure (the two collections in
insertion order, plus an id generator and a clock standing for Mongo's
object-id generation and `Date.now`), and each route handler as a pure
function from the store and the request data to a response together with
the updated store.  `Math.random()` is embedded as an explicit rational
argument `r` with `0 ≤ r < 1`, and `Math.floor(Math.random() * 10) + 1`
becomes `⌊r * 10⌋ + 1`.
-/

/-- A document of the `User` collection: `_id`, `username`, `points`. -/
structure Player where
  id : Nat
  username : String
  points : Int
  deriving Repr, DecidableEq

/-- A document of the `PointHistory` collection:
`_id`, `userId` (reference to a `User`), `pointsAwarded`, `timestamp`. -/
structure AwardRecord where
  id : Nat
  userId : Nat
  pointsAwarded : Int
  timestamp : Nat
  deriving Repr, DecidableEq

/-- The database state: both collections in insertion order, together
with the id generator and the clock used for `timestamp` defaults. -/
structure Store where
  users : List Player
  history : List AwardRecord
  nextId : Nat
  clock : Nat
  deriving Repr, DecidableEq

/-- A database with no documents at all. -/
def emptyStore : Store := ⟨[], [], 0, 0⟩

/-- `server.js` line 23: the ten default usernames inserted when the
`User` collection is empty at startup. -/
def initialUsers : List String :=
  ["Rahul", "Kamal", "Sanak", "Amit", "Priya", "Neha", "Vikas", "Anjali", "Rohit", "Simran"]

/-- Modelled from the spec: `src/server/models/User.js` is not under
`src/`.  Per the spec's data model, a Player's `points` is an "integer,
defaults to 0" and `id` is "generated at creation"; so a `User` document
created from a username alone carries a fresh id and 0 points. -/
def newUser (username : String) (freshId : Nat) : Player :=
  { id := freshId, username := username, points := 0 }

/-- `User.insertMany(names.map(username => ({ username })))`: each name
becomes a fresh `User` document (id from the generator, `points` at its
schema default 0), appended in order. -/
def insertManyUsers (names : List String) (s : Store) : Store :=
  names.foldl
    (fun t name =>
      { t with users := t.users ++ [newUser name t.nextId], nextId := t.nextId + 1 })
    s

/-- `mongoose.connection.once('open', ...)` (`server.js` lines 27-33):
if `User.countDocuments()` is 0, insert the ten default users. -/
def seedStore (s : Store) : Store :=
  if s.users.length = 0 then insertManyUsers initialUsers s else s

/-- `User.findById(uid)`: the document of the `User` collection whose
`_id` is `uid`, if any. -/
def findById (s : Store) (uid : Nat) : Option Player :=
  s.users.find? (fun u => u.id == uid)

/-- `GET /users` (`server.js` lines 40-47):
`User.find().sort({ points: -1 })`, the users sorted by `points`
descending (Mongo's sort is stable on the stored order). -/
def listPlayers (s : Store) : List Player :=
  s.users.mergeSort (fun a b => decide (b.points ≤ a.points))

/-- The `GET /users` handler: responds with the sorted user list and
performs no writes. -/
def handleGetUsers (s : Store) : List Player × Store :=
  (listPlayers s, s)

/-- The JSON body of a `POST /users` request.  Besides the `username`
field the handler actually reads, we model one extra field a client
could supply (a `points` value), which `server.js` line 52 ignores:
`new User({ username: req.body.username })`. -/
structure RegisterBody where
  username : String
  extraPoints : Option Int
  deriving Repr, DecidableEq

/-- `POST /users` (`server.js` lines 50-58): build a `User` from
`req.body.username` alone, save it, respond `201` with the created
document. -/
def registerPlayer (s : Store) (body : RegisterBody) : (Nat × Player) × Store :=
  let user := newUser body.username s.nextId
  ((201, user), { s with users := s.users ++ [user], nextId := s.nextId + 1 })

/-- The response of `POST /claim-points`: either
`200 { pointsAwarded, totalPoints }` or an error status with a message
body (`404 "User not found"` on a failed lookup). -/
inductive ClaimResponse where
  | ok (pointsAwarded : Int) (totalPoints : Int)
  | err (status : Nat) (message : String)
  deriving Repr, DecidableEq

/-- `Math.floor(Math.random() * 10) + 1` (`server.js` line 63), with the
`Math.random()` draw `r ∈ [0, 1)` passed explicitly. -/
def drawAmount (r : ℚ) : Int := ⌊r * 10⌋ + 1

/-- `POST /claim-points` (`server.js` lines 61-84): draw the amount,
look the user up by `req.body.userId`; on a miss respond
`404 { error: 'User not found' }` and change nothing; on a hit add the
amount to `user.points`, save the user (the document with that `_id` is
rewritten), create a `PointHistory` record (fresh id, `userId`, the
amount, the current time), and respond with the amount and new total. -/
def claimPoints (s : Store) (uid : Nat) (r : ℚ) : ClaimResponse × Store :=
  let pointsAwarded := drawAmount r
  match findById s uid with
  | none => (.err 404 "User not found", s)
  | some user =>
    let updated : Player := { user with points := user.points + pointsAwarded }
    let newRec : AwardRecord :=
      { id := s.nextId, userId := user.id, pointsAwarded := pointsAwarded,
        timestamp := s.clock }
    (.ok pointsAwarded updated.points,
      { users := s.users.map (fun u => if u.id == uid then updated else u),
        history := s.history ++ [newRec],
        nextId := s.nextId + 1,
        clock := s.clock + 1 })

/-- One entry of the `GET /point-history` response: the award record
with its `userId` populated to `{ _id, username }` (`null` when the
referenced user does not exist). -/
structure HistoryEntry where
  id : Nat
  user : Option (Nat × String)
  pointsAwarded : Int
  timestamp : Nat
  deriving Repr, DecidableEq

/-- `.populate('userId', 'username')` on one record: resolve the
reference to the user's id and username when the user exists. -/
def resolveEntry (s : Store) (rec : AwardRecord) : HistoryEntry :=
  { id := rec.id,
    user := (findById s rec.userId).map (fun u => (u.id, u.username)),
    pointsAwarded := rec.pointsAwarded,
    timestamp := rec.timestamp }

/-- `GET /point-history` (`server.js` lines 87-96):
`PointHistory.find().populate('userId', 'username').sort({ timestamp: -1 })`,
all award records sorted by `timestamp` descending, each with the player
reference resolved. -/
def listAwardHistory (s : Store) : List HistoryEntry :=
  (s.history.mergeSort (fun a b => decide (b.timestamp ≤ a.timestamp))).map
    (resolveEntry s)

/-- The `GET /point-history` handler: responds with the resolved,
sorted history and performs no writes. -/
def handleGetHistory (s : Store) : List HistoryEntry × Store :=
  (listAwardHistory s, s)

/-- One client-visible operation of the server, with the data the
handler consumes (for a claim, also the `Math.random()` draw). -/
inductive Op where
  | register (body : RegisterBody)
  | claim (uid : Nat) (r : ℚ)
  | getUsers
  | getHistory
  | seed

/-- The store after one operation (the read-only routes leave it as the
handlers do: unchanged). -/
def applyOp (s : Store) : Op → Store
  | .register body => (registerPlayer s body).2
  | .claim uid r => (claimPoints s uid r).2
  | .getUsers => (handleGetUsers s).2
  | .getHistory => (handleGetHistory s).2
  | .seed => seedStore s

/-- The store after a sequence of operations. -/
def runOps (s : Store) (ops : List Op) : Store :=
  ops.foldl applyOp s

/-- The total of `pointsAwarded` over the award records referencing a
given player id. -/
def awardSum (s : Store) (pid : Nat) : Int :=
  ((s.history.filter (fun rec => rec.userId == pid)).map (fun rec => rec.pointsAwarded)).sum

/-- The spec's §3 invariant: each player's `points` equals the sum of
`pointsAwarded` over the award records referencing that player. -/
def pointsInv (s : Store) : Prop :=
  ∀ p ∈ s.users, p.points = awardSum s p.id

/-- Bookkeeping invariant of the id generator: all stored ids are below
`nextId`, and user ids are pairwise distinct. -/
def idsInv (s : Store) : Prop :=
  (∀ p ∈ s.users, p.id < s.nextId) ∧
  (∀ rec ∈ s.history, rec.userId < s.nextId) ∧
  (s.users.map (fun p => p.id)).Nodup

instance (s : Store) : Decidable (pointsInv s) := by
  unfold pointsInv; infer_instance

instance (s : Store) : Decidable (idsInv s) := by
  unfold idsInv; infer_instance

/-! ### Helper lemmas -/

/-- The points invariant together with the id-generator bookkeeping. -/
def storeInv (s : Store) : Prop := pointsInv s ∧ idsInv s

instance (s : Store) : Decidable (storeInv s) := by
  unfold storeInv; infer_instance

theorem find?_map_update {l : List Player} {uid : Nat} {u v : Player}
    (hu : l.find? (fun x => x.id == uid) = some u) (hv : v.id = u.id) :
    (l.map (fun x => if x.id == uid then v else x)).find? (fun x => x.id == uid) =
      some v := by
  induction l with
  | nil => simp at hu
  | cons a l ih =>
    rw [List.find?_cons] at hu
    rw [List.map_cons, List.find?_cons]
    split at hu
    case h_1 h =>
      injection hu with hu
      subst hu
      have hva : (v.id == uid) = true := by
        simp only [beq_iff_eq] at h ⊢
        rw [hv]
        exact h
      simp only [h, if_true, hva]
    case h_2 h =>
      simp only [h, Bool.false_eq_true, if_false]
      exact ih hu

/-- A one-player sample store used to instantiate theorems with hypotheses. -/
def sampleStore : Store := ⟨[⟨0, "A", 0⟩], [], 1, 0⟩

/-- A second sample store with a different player and history. -/
def sampleStore2 : Store := ⟨[⟨7, "B", 3⟩], [⟨4, 7, 3, 5⟩], 8, 6⟩

/-! ### Claim theorems -/

/-- C3: a `POST /claim-points` whose `userId` resolves to no player
answers `404 { error: 'User not found' }`, creates no award record and
mutates no player: the store is returned unchanged. -/
theorem claimPoints_user_not_found (s : Store) (uid : Nat) (r : ℚ)
    (h : findById s uid = none) :
    claimPoints s uid r = (ClaimResponse.err 404 "User not found", s) := by
  simp only [claimPoints, h]

theorem claimPoints_user_not_found_witness :
    claimPoints sampleStore 5 0 = (ClaimResponse.err 404 "User not found", sampleStore) :=
  claimPoints_user_not_found sampleStore 5 0 rfl

/-- C4: `GET /users` performs no writes, and its response lists all
players of the store, sorted by `points` in descending order. -/
theorem handleGetUsers_sorted_no_writes (s : Store) :
    (handleGetUsers s).2 = s ∧
    (handleGetUsers s).1.Perm s.users ∧
    (handleGetUsers s).1.Pairwise (fun a b => b.points ≤ a.points) := by
  refine ⟨rfl, List.mergeSort_perm s.users _, ?_⟩
  have h : (s.users.mergeSort (fun a b => decide (b.points ≤ a.points))).Pairwise
      (fun a b => decide (b.points ≤ a.points) = true) := by
    apply List.sorted_mergeSort
    · intro a b c hab hbc
      simp only [decide_eq_true_eq] at *
      exact le_trans hbc hab
    · intro a b
      simp only [Bool.or_eq_true, decide_eq_true_eq]
      exact le_total b.points a.points
  exact h.imp (fun hab => of_decide_eq_true hab)

/-- C8: a successful `POST /users` answers `201` with exactly one new
player carrying the requested username, 0 points and a generated id; the
player is appended to the store (no existing player or record touched)
and appears in a subsequent `GET /users`. -/
theorem registerPlayer_creates_player (s : Store) (body : RegisterBody) :
    (registerPlayer s body).1.1 = 201 ∧
    (registerPlayer s body).1.2 =
      { id := s.nextId, username := body.username, points := 0 } ∧
    (registerPlayer s body).2.users = s.users ++ [(registerPlayer s body).1.2] ∧
    (registerPlayer s body).2.history = s.history ∧
    (registerPlayer s body).1.2 ∈ listPlayers (registerPlayer s body).2 := by
  refine ⟨rfl, rfl, rfl, rfl, ?_⟩
  simp [listPlayers, registerPlayer, newUser]

/-- C9: the amount a successful `POST /claim-points` awards equals
`drawAmount r`, a function of the random draw alone: two runs with the
same draw award the same amount whatever the store contents or the
requested `userId`. -/
theorem claimPoints_draw_independent (s t : Store) (uid vid : Nat) (r : ℚ)
    (a tot b tot2 : Int)
    (h : (claimPoints s uid r).1 = ClaimResponse.ok a tot)
    (h2 : (claimPoints t vid r).1 = ClaimResponse.ok b tot2) :
    a = drawAmount r ∧ b = drawAmount r ∧ a = b := by
  have ha : a = drawAmount r := by
    rcases hf : findById s uid with _ | u
    · simp [claimPoints, hf] at h
    · simp [claimPoints, hf] at h
      exact h.1.symm
  have hb : b = drawAmount r := by
    rcases hf : findById t vid with _ | u
    · simp [claimPoints, hf] at h2
    · simp [claimPoints, hf] at h2
      exact h2.1.symm
  exact ⟨ha, hb, ha.trans hb.symm⟩

theorem claimPoints_draw_independent_witness :
    drawAmount 0 = drawAmount 0 ∧ drawAmount 0 = drawAmount 0 ∧
      drawAmount 0 = drawAmount 0 :=
  claimPoints_draw_independent sampleStore sampleStore2 0 7 0
    (drawAmount 0) (0 + drawAmount 0) (drawAmount 0) (3 + drawAmount 0) rfl rfl

/-- C10: `POST /users` reads only the `username` field of the request
body: two bodies with the same username produce identical responses and
stores, and any supplied points value is ignored — the created player
starts at 0 points. -/
theorem registerPlayer_reads_only_username (s : Store) (b1 b2 : RegisterBody)
    (h : b1.username = b2.username) :
    registerPlayer s b1 = registerPlayer s b2 ∧
    (registerPlayer s b1).1.2.points = 0 :=
  ⟨by simp only [registerPlayer, newUser, h], rfl⟩

theorem registerPlayer_reads_only_username_witness :
    registerPlayer sampleStore ⟨"T", some 99⟩ = registerPlayer sampleStore ⟨"T", none⟩ ∧
    (registerPlayer sampleStore ⟨"T", some 99⟩).1.2.points = 0 :=
  registerPlayer_reads_only_username sampleStore ⟨"T", some 99⟩ ⟨"T", none⟩ rfl

/-- C1: a successful `POST /claim-points` (player found) draws an
integer amount in [1, 10], answers
`{ pointsAwarded, totalPoints = old points + pointsAwarded }`, persists
the player with the increased points, and appends exactly one new award
record linking the player id and the drawn amount. -/
theorem claimPoints_success (s : Store) (uid : Nat) (r : ℚ) (u : Player)
    (hr0 : 0 ≤ r) (hr1 : r < 1) (hu : findById s uid = some u) :
    1 ≤ drawAmount r ∧ drawAmount r ≤ 10 ∧
    (claimPoints s uid r).1 =
      ClaimResponse.ok (drawAmount r) (u.points + drawAmount r) ∧
    findById (claimPoints s uid r).2 uid =
      some { u with points := u.points + drawAmount r } ∧
    (claimPoints s uid r).2.history =
      s.history ++ [{ id := s.nextId, userId := u.id,
                      pointsAwarded := drawAmount r, timestamp := s.clock }] := by
  have h10 : (0:ℚ) ≤ r * 10 := by nlinarith
  have hlt : r * 10 < 10 := by nlinarith
  have hfl0 : 0 ≤ ⌊r * 10⌋ := Int.floor_nonneg.mpr h10
  have hfl9 : ⌊r * 10⌋ < 10 := by
    apply Int.floor_lt.mpr
    push_cast
    exact hlt
  refine ⟨by unfold drawAmount; omega, by unfold drawAmount; omega, ?_, ?_, ?_⟩
  · simp [claimPoints, hu]
  · simp only [claimPoints, hu]
    simp only [findById] at hu ⊢
    exact find?_map_update hu rfl
  · simp [claimPoints, hu]

theorem claimPoints_success_witness :
    1 ≤ drawAmount 0 ∧ drawAmount 0 ≤ 10 ∧
    (claimPoints sampleStore 0 0).1 =
      ClaimResponse.ok (drawAmount 0) ((0:Int) + drawAmount 0) ∧
    findById (claimPoints sampleStore 0 0).2 0 =
      some { id := 0, username := "A", points := (0:Int) + drawAmount 0 } ∧
    (claimPoints sampleStore 0 0).2.history =
      [{ id := 1, userId := 0, pointsAwarded := drawAmount 0, timestamp := 0 }] :=
  claimPoints_success sampleStore 0 0 ⟨0, "A", 0⟩ (by decide) (by decide) rfl

/-- C5: `GET /point-history` performs no writes and returns all award
records, ordered by `timestamp` descending, each with its `playerId`
resolved to the referenced player's id and username whenever that player
exists. -/
theorem handleGetHistory_sorted_resolved (s : Store) :
    (handleGetHistory s).2 = s ∧
    (listAwardHistory s).Pairwise (fun a b => b.timestamp ≤ a.timestamp) ∧
    (listAwardHistory s).Perm (s.history.map (resolveEntry s)) ∧
    (∀ rec ∈ s.history, resolveEntry s rec ∈ listAwardHistory s) ∧
    (∀ rec ∈ s.history, ∀ u, findById s rec.userId = some u →
      (resolveEntry s rec).user = some (u.id, u.username)) := by
  have hsorted : (s.history.mergeSort (fun a b => decide (b.timestamp ≤ a.timestamp))).Pairwise
      (fun a b => decide (b.timestamp ≤ a.timestamp) = true) := by
    apply List.sorted_mergeSort
    · intro a b c hab hbc
      simp only [decide_eq_true_eq] at *
      exact le_trans hbc hab
    · intro a b
      simp only [Bool.or_eq_true, decide_eq_true_eq]
      exact Nat.le_total b.timestamp a.timestamp
  refine ⟨rfl, ?_, ?_, ?_, ?_⟩
  · unfold listAwardHistory
    rw [List.pairwise_map]
    exact hsorted.imp (fun hab => of_decide_eq_true hab)
  · exact (List.mergeSort_perm s.history _).map (resolveEntry s)
  · intro rec hrec
    exact List.mem_map_of_mem _ (List.mem_mergeSort.mpr hrec)
  · intro rec hrec u hu
    simp [resolveEntry, hu]

theorem handleGetHistory_sorted_resolved_witness :
    (resolveEntry sampleStore2 ⟨4, 7, 3, 5⟩).user = some (7, "B") ∧
    (handleGetHistory sampleStore2).2 = sampleStore2 :=
  ⟨(handleGetHistory_sorted_resolved sampleStore2).2.2.2.2 ⟨4, 7, 3, 5⟩ (by decide)
      ⟨7, "B", 3⟩ rfl,
   (handleGetHistory_sorted_resolved sampleStore2).1⟩

/-- C7: with an empty `User` collection, startup seeding inserts exactly
the ten fixed default players, each with 0 points, and `GET /users` then
returns exactly those ten; with a non-empty collection seeding inserts
nothing. -/
theorem seed_inserts_ten_defaults :
    ((listPlayers (seedStore emptyStore)).map (fun p => p.username) = initialUsers) ∧
    (∀ p ∈ listPlayers (seedStore emptyStore), p.points = 0) ∧
    (listPlayers (seedStore emptyStore)).length = 10 ∧
    (∀ s : Store, s.users.length ≠ 0 → seedStore s = s) := by
  have husers : (seedStore emptyStore).users.Pairwise
      (fun a b => decide (b.points ≤ a.points) = true) := by decide
  have hsort : listPlayers (seedStore emptyStore) = (seedStore emptyStore).users :=
    List.mergeSort_of_sorted husers
  refine ⟨?_, ?_, ?_, ?_⟩
  · rw [hsort]; decide
  · rw [hsort]; decide
  · rw [hsort]; decide
  · intro s hs
    unfold seedStore
    simp [hs]

theorem seed_inserts_ten_defaults_witness :
    ((listPlayers (seedStore emptyStore)).map (fun p => p.username) = initialUsers) ∧
    seedStore sampleStore = sampleStore :=
  ⟨seed_inserts_ten_defaults.1,
   seed_inserts_ten_defaults.2.2.2 sampleStore (by decide)⟩

/-- C6: a successful `POST /claim-points` touches nothing but the
claimed player's `points` (same position, id and username; every player
with another id unchanged) and appends exactly one new award record,
leaving every pre-existing record in place.  The id-uniqueness
hypothesis reflects Mongo's unique `_id` (see `idsInv`). -/
theorem claimPoints_frame (s : Store) (uid : Nat) (r : ℚ) (u : Player)
    (hu : findById s uid = some u)
    (hnd : (s.users.map (fun p => p.id)).Nodup) :
    (claimPoints s uid r).2.users.length = s.users.length ∧
    (∀ i : Nat, (claimPoints s uid r).2.users[i]? =
      (s.users[i]?).map (fun p =>
        if p.id = uid then { p with points := p.points + drawAmount r } else p)) ∧
    (claimPoints s uid r).2.history =
      s.history ++ [{ id := s.nextId, userId := u.id,
                      pointsAwarded := drawAmount r, timestamp := s.clock }] := by
  have hu' : s.users.find? (fun x => x.id == uid) = some u := hu
  have hmem : u ∈ s.users := List.mem_of_find?_eq_some hu'
  have huid : u.id = uid := by simpa [beq_iff_eq] using List.find?_some hu'
  have hinj := List.inj_on_of_nodup_map hnd
  refine ⟨by simp [claimPoints, hu], ?_, by simp [claimPoints, hu]⟩
  intro i
  simp only [claimPoints, hu]
  rw [List.getElem?_map]
  cases hx : s.users[i]? with
  | none => rfl
  | some x =>
    have hxmem : x ∈ s.users := by
      have := List.getElem?_eq_some_iff.mp hx
      obtain ⟨hi, hgx⟩ := this
      exact hgx ▸ List.getElem_mem hi
    by_cases hid : x.id = uid
    · have hxu : x = u := hinj hxmem hmem (by rw [hid, huid])
      subst hxu
      simp [hid]
    · simp [hid]

theorem claimPoints_frame_witness :
    (claimPoints sampleStore 0 0).2.users.length = sampleStore.users.length ∧
    (∀ i : Nat, (claimPoints sampleStore 0 0).2.users[i]? =
      (sampleStore.users[i]?).map (fun p =>
        if p.id = 0 then { p with points := p.points + drawAmount 0 } else p)) ∧
    (claimPoints sampleStore 0 0).2.history =
      sampleStore.history ++ [{ id := 1, userId := 0,
                                pointsAwarded := drawAmount 0, timestamp := 0 }] :=
  claimPoints_frame sampleStore 0 0 ⟨0, "A", 0⟩ rfl (by decide)

theorem awardSum_append_one (s : Store) (rec1 : AwardRecord)
    (users2 : List Player) (n c : Nat) (pid : Nat) :
    awardSum ⟨users2, s.history ++ [rec1], n, c⟩ pid =
      awardSum s pid + (if rec1.userId = pid then rec1.pointsAwarded else 0) := by
  show (((s.history ++ [rec1]).filter (fun rec => rec.userId == pid)).map
      (fun rec => rec.pointsAwarded)).sum = _
  rw [List.filter_append, List.map_append, List.sum_append]
  by_cases h : rec1.userId = pid
  · simp [List.filter_cons, h, awardSum]
  · simp [List.filter_cons, h, awardSum]

theorem storeInv_insert {s : Store} (h : storeInv s) (name : String) :
    storeInv { s with users := s.users ++ [newUser name s.nextId],
                      nextId := s.nextId + 1 } := by
  obtain ⟨hpts, hup, hrec, hnd⟩ := h
  refine ⟨?_, ?_, ?_, ?_⟩
  · intro p hp
    rw [List.mem_append] at hp
    rcases hp with hp | hp
    · exact hpts p hp
    · rw [List.mem_singleton] at hp
      subst hp
      show (0:Int) = _
      have hf : s.history.filter (fun rec => rec.userId == (newUser name s.nextId).id) = [] := by
        rw [List.filter_eq_nil_iff]
        intro a ha
        have := hrec a ha
        simp only [beq_iff_eq, newUser]
        omega
      unfold awardSum
      rw [hf]
      rfl
  · intro p hp
    rw [List.mem_append] at hp
    rcases hp with hp | hp
    · exact Nat.lt_succ_of_lt (hup p hp)
    · rw [List.mem_singleton] at hp
      subst hp
      exact Nat.lt_succ_self _
  · intro a ha
    exact Nat.lt_succ_of_lt (hrec a ha)
  · rw [List.map_append, List.nodup_append]
    refine ⟨hnd, by simp, ?_⟩
    intro x hx hx2
    simp only [List.map_cons, List.map_nil, List.mem_singleton, newUser] at hx2
    subst hx2
    rcases List.mem_map.mp hx with ⟨p, hp, hpid⟩
    have := hup p hp
    omega

theorem storeInv_insertMany {names : List String} {s : Store} (h : storeInv s) :
    storeInv (insertManyUsers names s) := by
  induction names generalizing s with
  | nil => exact h
  | cons n ns ih => exact ih (storeInv_insert h n)

theorem storeInv_seed {s : Store} (h : storeInv s) : storeInv (seedStore s) := by
  unfold seedStore
  split
  · exact storeInv_insertMany h
  · exact h

theorem storeInv_register {s : Store} (h : storeInv s) (body : RegisterBody) :
    storeInv (registerPlayer s body).2 :=
  storeInv_insert h body.username

theorem storeInv_claim {s : Store} (h : storeInv s) (uid : Nat) (r : ℚ) :
    storeInv (claimPoints s uid r).2 := by
  obtain ⟨hpts, hup, hrec, hnd⟩ := h
  rcases hf : findById s uid with _ | u
  · simp only [claimPoints, hf]
    exact ⟨hpts, hup, hrec, hnd⟩
  · have hf' : s.users.find? (fun x => x.id == uid) = some u := hf
    have hmem : u ∈ s.users := List.mem_of_find?_eq_some hf'
    have huid : u.id = uid := by simpa [beq_iff_eq] using List.find?_some hf'
    have hinj := List.inj_on_of_nodup_map hnd
    simp only [claimPoints, hf]
    refine ⟨?_, ?_, ?_, ?_⟩
    · intro p hp
      obtain ⟨x, hx, hfx⟩ := List.mem_map.mp hp
      subst hfx
      by_cases hid : (x.id == uid) = true
      · have hxu : x = u := by
          rw [beq_iff_eq] at hid
          exact hinj hx hmem (hid.trans huid.symm)
        subst hxu
        simp only [hid, if_true]
        rw [awardSum_append_one, hpts x hmem]
        simp
      · simp only [hid, Bool.false_eq_true, if_false]
        rw [awardSum_append_one, hpts x hx]
        have hne : u.id ≠ x.id := by
          rw [huid]
          intro e
          exact hid (by rw [beq_iff_eq, e])
        simp [hne]
    · intro p hp
      obtain ⟨x, hx, hfx⟩ := List.mem_map.mp hp
      subst hfx
      by_cases hid : (x.id == uid) = true
      · simp only [hid, if_true]
        exact Nat.lt_succ_of_lt (hup u hmem)
      · simp only [hid, Bool.false_eq_true, if_false]
        exact Nat.lt_succ_of_lt (hup x hx)
    · intro a ha
      rw [List.mem_append] at ha
      rcases ha with ha | ha
      · exact Nat.lt_succ_of_lt (hrec a ha)
      · rw [List.mem_singleton] at ha
        subst ha
        exact Nat.lt_succ_of_lt (hup u hmem)
    · rw [List.map_map]
      have heq : s.users.map ((fun p => p.id) ∘
          (fun x => if x.id == uid
            then { id := u.id, username := u.username, points := u.points + drawAmount r }
            else x)) = s.users.map (fun p => p.id) := by
        apply List.map_congr_left
        intro x hx
        by_cases hid : (x.id == uid) = true
        · have hxu : x = u := by
            rw [beq_iff_eq] at hid
            exact hinj hx hmem (hid.trans huid.symm)
          subst hxu
          simp [Function.comp, hid]
        · simp [Function.comp, hid]
      rw [heq]
      exact hnd

theorem storeInv_applyOp {s : Store} (h : storeInv s) (op : Op) :
    storeInv (applyOp s op) := by
  cases op with
  | register body => exact storeInv_register h body
  | claim uid r => exact storeInv_claim h uid r
  | getUsers => exact h
  | getHistory => exact h
  | seed => exact storeInv_seed h

theorem storeInv_runOps {s : Store} (h : storeInv s) (ops : List Op) :
    storeInv (runOps s ops) := by
  induction ops generalizing s with
  | nil => exact h
  | cons op ops ih => exact ih (storeInv_applyOp h op)

/-- C2: starting from an empty or freshly seeded store, after any
sequence of operations every player's `points` equals the sum of
`pointsAwarded` over the award records referencing that player. -/
theorem runOps_points_eq_award_sum (start : Store) (ops : List Op)
    (h : start = emptyStore ∨ start = seedStore emptyStore) :
    ∀ p ∈ (runOps start ops).users,
      p.points = awardSum (runOps start ops) p.id := by
  have h0 : storeInv start := by
    rcases h with h | h <;> subst h <;> decide
  exact (storeInv_runOps h0 ops).1

theorem runOps_points_eq_award_sum_witness :
    ({ id := 0, username := "T", points := 0 + drawAmount (1/2) } : Player).points =
      awardSum (runOps emptyStore [Op.register ⟨"T", none⟩, Op.claim 0 (1/2)])
        ({ id := 0, username := "T", points := 0 + drawAmount (1/2) } : Player).id :=
  runOps_points_eq_award_sum emptyStore [Op.register ⟨"T", none⟩, Op.claim 0 (1/2)]
    (Or.inl rfl) { id := 0, username := "T", points := 0 + drawAmount (1/2) }
    (List.mem_singleton.mpr rfl)
